import Mathlib

/-!
Verification of the tsfaas forecast front-end against its specification.

The definitions below are a shallow embedding of the TypeScript source:

* JavaScript value coercions (`||`, `??`, truthiness of numbers and
  strings) are modelled explicitly, since several claims hinge on them.
* Numbers are modelled as `ℚ` (the values the pages pass around are
  ordinary finite JS numbers; no claim here depends on float rounding).
* `number | null | undefined` fields become `Option ℚ`; absent arrays
  become `Option (List ℚ)`.

Source files referenced throughout (paths relative to the repository):

* `frontend/app/columns/page.tsx`            -- ColumnSelectionPage
* `frontend/intfrontend/pages/Upload.tsx`    -- detectTimeColumn
* `frontend/intfrontend/pages/Results.tsx` and its variant `part_007`
* `frontend/intfrontend/pages/Dashboard.tsx` and its variant `part_009`
* `frontend/intfrontend/components/forecast/ColumnSelector.tsx` / `part_010`
* `frontend/intfrontend/components/forecast/ModelComparisonTabs.tsx`
* `part_005`                                 -- Configure page
-/

namespace TsFaas

/-! ### JavaScript semantics helpers -/

/-- JS truthiness of a string: every string except the empty string is truthy. -/
def strTruthy (s : String) : Bool := s ≠ ""

/-- JS `x || y` for `x : String | undefined` and `y` an optional string:
returns `x` when it is a truthy (non-empty) string, otherwise `y`. -/
def jsOrStr (x : Option String) (y : Option String) : Option String :=
  match x with
  | some s => if strTruthy s then some s else y
  | none => y

/-- JS `x || d` where `x` is the result of `parseInt` (`none` models `NaN`):
`NaN` and `0` are falsy, every other integer is truthy. -/
def jsOrInt (x : Option Int) (d : Int) : Int :=
  match x with
  | some v => if v = 0 then d else v
  | none => d

/-- JS `v || null` for a `number | undefined` value: `0`, `null` and
`undefined` all collapse to `null`. -/
def jsNumOrNull (x : Option ℚ) : Option ℚ :=
  match x with
  | some v => if v = 0 then none else some v
  | none => none

/-- Does the character list `pat` occur at the head of `s`? -/
def headMatches : List Char → List Char → Bool
  | [], _ => true
  | _ :: _, [] => false
  | a :: pat, b :: s => a = b && headMatches pat s

/-- Does `pat` occur as a contiguous sublist of `s`?  (JS `String.includes`.) -/
def subOccurs (pat s : List Char) : Bool :=
  (List.range (s.length + 1)).any fun i => headMatches pat (s.drop i)

/-- JS `s.includes(pat)` on strings. -/
def strIncludes (s pat : String) : Bool := subOccurs pat.toList s.toList

/-- JS `s.toLowerCase()`, written over the character list so that it is
kernel-computable. -/
def strToLower (s : String) : String := ⟨s.data.map Char.toLower⟩

/-! ### Time-column detection (Upload.tsx lines 22-28, Configure part_005 lines 56-72) -/

/-- The fixed keyword list of `detectTimeColumn` in `Upload.tsx`. -/
def timeKeywords : List String :=
  ["date", "time", "datetime", "timestamp", "period", "year", "month", "day"]

/-- A sampled data row: a mapping from column name to cell text. -/
def Row := List (String × String)

/-- Embedding of `detectTimeColumn(cols, data)` from
`frontend/intfrontend/pages/Upload.tsx` lines 22-28.  The JS body is
`cols.find(col => timeKeywords.some(k => col.toLowerCase().includes(k)))
 || cols[0] || null`; note the `data` parameter is never read. -/
def detectTimeColumn (cols : List String) (_data : List Row) : Option String :=
  jsOrStr
    (cols.find? fun col => timeKeywords.any fun kw => strIncludes (strToLower col) kw)
    (jsOrStr cols.head? none)

/-- Embedding of the Configure page default time column
(`part_005` line 63): `response.time_candidates?.[0]?.column || response.columns[0]`.
`timeCandidates` is `none` when the field is absent; each candidate is a
`(column, score)` pair. -/
def configureDetectedTimeColumn
    (timeCandidates : Option (List (String × ℚ))) (columns : List String) :
    Option String :=
  match timeCandidates.bind (fun tc => tc.head?.map Prod.fst) with
  | some c => if strTruthy c then some c else columns.head?
  | none => columns.head?

/-! ### Client-side job status handling (Results part_007 lines 130-245, Dashboard part_009 lines 37-58) -/

/-- What the Results polling callback does with one observed status value. -/
inductive PollAction
  | stopSuccess
  | stopFailure
  | continuePolling
deriving DecidableEq, Repr

/-- Embedding of the status branching in `Results.loadForecastResults`
(`part_007` lines 133 and 213): `completed` and `finished` stop polling and
fetch the result, `failed` stops polling with an error toast, anything else
keeps polling. -/
def resultsStatusAction (st : String) : PollAction :=
  if st = "completed" ∨ st = "finished" then .stopSuccess
  else if st = "failed" then .stopFailure
  else .continuePolling

/-- JS object-literal lookup used by `getStatusBadge`. -/
def lookupStr {α : Type} (st : String) : List (String × α) → Option α
  | [] => none
  | (k, v) :: rest => if st = k then some v else lookupStr st rest

/-- Embedding of the `statusConfig` record of `Dashboard.getStatusBadge`
(`part_009` lines 38-47): status key mapped to (color classes, icon name). -/
def dashboardStatusConfig : List (String × (String × String)) :=
  [ ("uploaded",   ("bg-blue-100 text-blue-700 border-blue-200",       "FileSpreadsheet")),
    ("configured", ("bg-purple-100 text-purple-700 border-purple-200", "Clock")),
    ("processing", ("bg-yellow-100 text-yellow-700 border-yellow-200", "Loader2")),
    ("queued",     ("bg-yellow-100 text-yellow-700 border-yellow-200", "Clock")),
    ("started",    ("bg-yellow-100 text-yellow-700 border-yellow-200", "Loader2")),
    ("completed",  ("bg-green-100 text-green-700 border-green-200",    "CheckCircle")),
    ("finished",   ("bg-green-100 text-green-700 border-green-200",    "CheckCircle")),
    ("failed",     ("bg-red-100 text-red-700 border-red-200",          "XCircle")) ]

/-- The status keys the Dashboard badge distinguishes. -/
def dashboardStatusKeys : List String := dashboardStatusConfig.map Prod.fst

/-- Embedding of the config selection of `getStatusBadge` (`part_009` line 49):
`statusConfig[status] || statusConfig.uploaded`. -/
def getStatusBadgeConfig (st : String) : String × String :=
  (lookupStr st dashboardStatusConfig).getD
    ("bg-blue-100 text-blue-700 border-blue-200", "FileSpreadsheet")

/-- The four status values named by the specification for
`GET /forecast/{id}/status`. -/
def specStatusSet : List String := ["pending", "processing", "completed", "failed"]

/-! ### Column / horizon configuration pages (columns/page.tsx, part_005 + ColumnSelector in part_010)

Both submission pages keep the same four pieces of state the forecast
request is built from.  The reachable-state relation models exactly the
interactions the rendered controls allow: a `select` only fires `onChange`
with one of its listed `option` values, a checkbox/badge only exists for
the columns currently listed. -/

/-- The client-side state feeding a forecast submission. -/
structure PageState where
  timeColumn : String
  targetColumn : String
  exogenous : List String
  horizon : Int
deriving DecidableEq, Repr

/-- One user interaction with the configuration controls.  `setHorizon raw`
carries the result of `parseInt` on the typed text (`none` models `NaN`). -/
inductive PageEvent
  | setTime (c : String)
  | setTarget (c : String)
  | toggleExog (c : String)
  | setHorizon (raw : Option Int)
deriving DecidableEq, Repr

/-- Exogenous checkbox toggle shared by both pages: checked adds the column
at the end, unchecked filters it out (columns/page.tsx lines 215-221,
part_005 lines 74-80). -/
def jsToggle (xs : List String) (c : String) : List String :=
  if xs.contains c then xs.filter (· ≠ c) else xs ++ [c]

/-- One step of the columns configuration page (`frontend/app/columns/page.tsx`).
Guards record which values the rendered controls can emit:

* time `select`: the empty option plus every column (lines 168-181);
* target `select`: the empty option plus `columns.filter(col => col !== selectedTimeColumn)` (lines 104-107, 194-199);
* exogenous checkboxes: `columns.filter(col => col !== selectedTimeColumn && col !== selectedTarget)` (lines 110-112, 210-226);
* horizon input: `setHorizon(Math.max(1, Math.min(365, parseInt(v) || 14)))` (line 239). -/
def columnsStep (cols : List String) (s : PageState) : PageEvent → Option PageState
  | .setTime c =>
      if c = "" ∨ cols.contains c then some { s with timeColumn := c } else none
  | .setTarget c =>
      if c = "" ∨ (cols.contains c ∧ c ≠ s.timeColumn) then
        some { s with targetColumn := c }
      else none
  | .toggleExog c =>
      if cols.contains c ∧ c ≠ s.timeColumn ∧ c ≠ s.targetColumn then
        some { s with exogenous := jsToggle s.exogenous c }
      else none
  | .setHorizon raw =>
      some { s with horizon := max 1 (min 365 (jsOrInt raw 14)) }

/-- One step of the Configure page (`part_005` with `ColumnSelector` from
`part_010`).  The column guards are the same as on the columns page
(`part_010` lines 241-246, 258-263, 276-294); the horizon input differs:
`onHorizonChange(parseInt(v) || 14)` with no clamping (`part_010` line 312). -/
def configureStep (cols : List String) (s : PageState) : PageEvent → Option PageState
  | .setTime c =>
      if c = "" ∨ cols.contains c then some { s with timeColumn := c } else none
  | .setTarget c =>
      if c = "" ∨ (cols.contains c ∧ c ≠ s.timeColumn) then
        some { s with targetColumn := c }
      else none
  | .toggleExog c =>
      if cols.contains c ∧ c ≠ s.timeColumn ∧ c ≠ s.targetColumn then
        some { s with exogenous := jsToggle s.exogenous c }
      else none
  | .setHorizon raw =>
      some { s with horizon := jsOrInt raw 14 }

/-- Run a list of interactions from a state; `none` when some interaction is
impossible in the rendered UI. -/
def runEvents (step : PageState → PageEvent → Option PageState)
    (s : PageState) : List PageEvent → Option PageState
  | [] => some s
  | e :: es =>
      match step s e with
      | some s2 => runEvents step s2 es
      | none => none

/-- Initial page state: target empty, no exogenous columns, horizon 14
(columns/page.tsx lines 14-17, part_005 lines 28-31).  `t0` is the initial
time column: the empty string, or the auto-selected first time candidate. -/
def initState (t0 : String) : PageState := ⟨t0, "", [], 14⟩

/-- Both pages enable submission exactly when the time and target selections
are non-empty (columns/page.tsx lines 54 and 271, part_005 lines 83 and 209). -/
def canSubmit (s : PageState) : Bool := s.timeColumn ≠ "" ∧ s.targetColumn ≠ ""

/-- The forecast request body sent by `handleSubmit` / `handleRunForecast`:
`exogenous` is sent only when the list is non-empty (columns/page.tsx
lines 63-70, part_005 lines 91-98). -/
structure ForecastRequest where
  time_column : String
  target_column : String
  exogenous : Option (List String)
  horizon : Int
deriving DecidableEq, Repr

/-- Build the submitted request from the page state. -/
def submitRequest (s : PageState) : ForecastRequest :=
  ⟨s.timeColumn, s.targetColumn,
   if s.exogenous.length > 0 then some s.exogenous else none, s.horizon⟩

/-! ### Result assembly (Results part_007 lines 147-179 and 288-319)

Two places in `Results` build the chart data: the poll-completion handler
`loadForecastResults` and `handleModelSelect`.  Both push historical points
followed by one forecast point per forecast date, with the same field
expressions; `buildChartData` embeds that shared merge. -/

/-- One entry of the assembled `chart_data`.  JS fields that a push site
leaves out (`forecast` on a historical point, `actual` on a forecast point)
are `none`. -/
structure ChartPoint where
  date : String
  actual : Option ℚ
  forecast : Option ℚ
  lower_bound : Option ℚ
  upper_bound : Option ℚ
  is_forecast : Bool
deriving DecidableEq, Repr

/-- One entry of `result.historical_data`: `{ date, actual }`. -/
structure HistPoint where
  date : String
  actual : Option ℚ
deriving DecidableEq, Repr

/-- Chart point pushed for one historical entry (part_007 lines 160-164):
`{ date: point.date, actual: point.actual, is_forecast: false }`. -/
def histChartPoint (p : HistPoint) : ChartPoint :=
  ⟨p.date, p.actual, none, none, none, false⟩

/-- Chart point pushed for the forecast date at position `idx`
(part_007 lines 171-177):
`{ date, forecast: preds[idx] || null, lower_bound: lb?.[idx] || null,
upper_bound: ub?.[idx] || null, is_forecast: true }`. -/
def forecastChartPoint (preds : List ℚ) (lb ub : Option (List ℚ))
    (d : String) (idx : ℕ) : ChartPoint :=
  ⟨d, none,
   jsNumOrNull (preds.get? idx),
   jsNumOrNull (lb.bind fun l => l.get? idx),
   jsNumOrNull (ub.bind fun l => l.get? idx),
   true⟩

/-- The `forecast_dates.forEach((date, idx) => ...)` loop, with `i` the
index of the first date of the remaining list. -/
def forecastPoints (preds : List ℚ) (lb ub : Option (List ℚ)) :
    List String → ℕ → List ChartPoint
  | [], _ => []
  | d :: ds, i => forecastChartPoint preds lb ub d i :: forecastPoints preds lb ub ds (i + 1)

/-- Embedding of the chart-data merge (part_007 lines 147-179, identically
lines 288-319): historical points are pushed when `historical_data` is
present (the `length > 0` guard only skips an empty loop), forecast points
when both `predictions` and `forecast_dates` are present. -/
def buildChartData (hist : Option (List HistPoint)) (dates : Option (List String))
    (preds : Option (List ℚ)) (lb ub : Option (List ℚ)) : List ChartPoint :=
  (match hist with
   | some h => h.map histChartPoint
   | none => []) ++
  (match preds, dates with
   | some p, some ds => forecastPoints p lb ub ds 0
   | _, _ => [])

/-! ### CSV export (Results part_007 lines 253-280)

The export consists of a fixed header line and one line per chart point;
the numeric fields use `row.field ?? empty-string`, so only `null`/`undefined`
becomes the empty string.  JS converts the numbers to strings with its
`Number`-to-string coercion inside `Array.join`; the embedding abstracts
that coercion as a `render` parameter (it is supplied by the JS runtime,
not by this repository). -/

/-- CSV cell for an optional numeric field: `value ?? empty-string` followed by the
number-to-string coercion of `join`. -/
def csvField (render : ℚ → String) (x : Option ℚ) : String :=
  match x with
  | some v => render v
  | none => ""

/-- The five cells of one exported row (part_007 lines 262-268). -/
def csvCells (render : ℚ → String) (p : ChartPoint) : List String :=
  [p.date, csvField render p.actual, csvField render p.forecast,
   csvField render p.lower_bound, csvField render p.upper_bound]

/-- One exported CSV line: the cells joined with commas. -/
def csvLine (render : ℚ → String) (p : ChartPoint) : String :=
  String.intercalate "," (csvCells render p)

/-- The header row of `handleExportCSV` (part_007 line 260). -/
def csvHeader : String :=
  String.intercalate "," ["Date", "Actual", "Forecast", "Lower Bound", "Upper Bound"]

/-- The list of exported lines: header first, then one line per chart
point in order. -/
def csvLines (render : ℚ → String) (data : List ChartPoint) : List String :=
  csvHeader :: data.map (csvLine render)

/-- Embedding of `handleExportCSV` (part_007 lines 253-271): `none` models
the early return (error toast, nothing exported) on an empty dataset;
otherwise the produced file contents. -/
def handleExportCSV (render : ℚ → String) (data : List ChartPoint) : Option String :=
  if data.length = 0 then none
  else some (String.intercalate "\n" (csvLines render data))

/-! ### Metric display (MetricsCard in part_010 lines 134-166, ModelComparisonTabs.tsx lines 50-56) -/

/-- JS `x.toFixed(d)` viewed as the rational quantity displayed (rounding
to `d` decimal places; at the inputs used by the theorems below no
half-way tie occurs, so the tie-breaking mode is irrelevant). -/
def jsToFixed (x : ℚ) (d : ℕ) : ℚ := (round (x * 10 ^ d) : ℚ) / 10 ^ d

/-- The percentage quantity the summary `MetricsCard` shows for MAPE
(part_010 line 154): `metrics.mape ? mape.toFixed(1)% : N/A` — the value
is displayed as-is (already a percentage); `none` models `N/A`. -/
def metricsCardMapePercent (mape : Option ℚ) : Option ℚ :=
  match mape with
  | some m => if m = 0 then none else some (jsToFixed m 1)
  | none => none

/-- The percentage quantity `MetricsCard` shows for accuracy
(part_010 line 161): same shape as MAPE. -/
def metricsCardAccuracyPercent (acc : Option ℚ) : Option ℚ :=
  match acc with
  | some a => if a = 0 then none else some (jsToFixed a 1)
  | none => none

/-- The percentage quantity the model-comparison table shows for a metric
rendered with `formatMetric(value, percent)` (ModelComparisonTabs.tsx
lines 50-56): `(value * 100).toFixed(2)%`, i.e. the stored value is
multiplied by 100. -/
def formatMetricPercent (v : Option ℚ) : Option ℚ :=
  match v with
  | some x => some (jsToFixed (x * 100) 2)
  | none => none

/-! ### Status polling loop (Results part_007 lines 108-251)

`loadForecastResults` starts a `setInterval` poll (every 2000 ms) plus a
single `setTimeout` (after 300000 ms), tracking the cleared/armed state of
each in refs.  The machine below carries those refs; each interval tick
delivers one observed status, and the tick issues a `GET .../status`
request exactly when the interval is still armed and `isPollingRef` is
still true. -/

/-- The interval period of the status poll in milliseconds
(part_007 line 231). -/
def pollIntervalMs : ℕ := 2000

/-- The abandonment timeout in milliseconds (part_007 line 245);
300000 ms is 5 minutes. -/
def pollTimeoutMs : ℕ := 300000

/-- The mutable refs and visible flags of the polling loop:
`isPolling` is `isPollingRef`, `intervalActive`/`timeoutActive` record
whether `pollIntervalRef`/`timeoutRef` still hold a live timer,
`isLoading` is the spinner state, `timedOut` records that the
"taking longer than expected" message was surfaced. -/
structure PollState where
  isPolling : Bool
  intervalActive : Bool
  timeoutActive : Bool
  isLoading : Bool
  timedOut : Bool
deriving DecidableEq, Repr

/-- State right after `loadForecastResults` arms the interval and timeout
(part_007 lines 119-124 and 234). -/
def pollInit : PollState :=
  ⟨true, true, true, true, false⟩

/-- The fully stopped state reached on a terminal status: polling flag
cleared, both timers cleared, spinner off (part_007 lines 134-143 and
214-223). -/
def pollStopped (timedOut : Bool) : PollState :=
  ⟨false, false, false, false, timedOut⟩

/-- One firing of the interval callback with observed status `st`
(part_007 lines 124-231).  Returns the new state and whether a status
request was issued: no tick fires once the interval is cleared; an armed
tick first checks `isPollingRef` and returns without a request when it is
false; otherwise it requests the status and stops on a terminal value. -/
def pollTick (s : PollState) (st : String) : PollState × Bool :=
  if s.intervalActive = false then (s, false)
  else if s.isPolling = false then (s, false)
  else
    match resultsStatusAction st with
    | .stopSuccess => (pollStopped s.timedOut, true)
    | .stopFailure => (pollStopped s.timedOut, true)
    | .continuePolling => (s, true)

/-- One firing of the 5-minute timeout callback (part_007 lines 234-245):
if still polling it clears the flag and the interval, stops the spinner
and surfaces the "taking longer than expected" message; otherwise it does
nothing (beyond the timer itself having fired). -/
def pollTimeoutFire (s : PollState) : PollState :=
  if s.timeoutActive = false then s
  else if s.isPolling then ⟨false, false, false, false, true⟩
  else { s with timeoutActive := false }

/-- Events delivered to the polling loop: an interval tick carrying the
observed status, or the timeout firing. -/
inductive PollEvent
  | tick (st : String)
  | timeoutFire
deriving DecidableEq, Repr

/-- One event step; the boolean reports whether a status request was issued. -/
def pollStep (s : PollState) : PollEvent → PollState × Bool
  | .tick st => pollTick s st
  | .timeoutFire => (pollTimeoutFire s, false)

/-- Count the status requests issued along a list of events. -/
def pollRequests (s : PollState) : List PollEvent → ℕ
  | [] => 0
  | e :: es =>
      let r := pollStep s e
      (if r.2 then 1 else 0) + pollRequests r.1 es

/-! ### Backend forecast pipeline, modelled from the spec

The repository snapshot under inspection contains only the front end; the
worker that fits the strategies and completes the job is not part of it.
The definitions in this section are therefore modelled from the spec, not
translated from source. -/

/-- Modelled from the spec: the backend `ModelResult` (spec section 3); the
missing code is the worker model-runner module.  Only the fields the
claims use are carried. -/
structure SpecModelResult where
  strategy_name : String
  forecast_values : List ℚ
  rmse : ℚ
  mae : ℚ
  fit_error : Option String
deriving DecidableEq, Repr

/-- Modelled from the spec: one Model Runner (spec section 4.3); the missing
code is the worker `fit_and_forecast`.  `outcome` abstracts the fitting
library: on success a forecast function together with the holdout RMSE and
MAE, on failure `none`.  A successful fit yields `horizon`-length
forecasts; a failed fit yields `fit_error` set and empty forecast fields. -/
def specRunStrategy (name : String) (horizon : ℕ)
    (outcome : Option ((ℕ → ℚ) × ℚ × ℚ)) : SpecModelResult :=
  match outcome with
  | some (f, r, m) =>
      ⟨name, (List.range horizon).map f, r, m, none⟩
  | none =>
      ⟨name, [], 0, 0, some "fit failed"⟩

/-- The fixed strategy set in priority order (spec sections 4.3 and 4.4). -/
def specStrategyNames : List String := ["arima", "ets", "xgboost"]

/-- Modelled from the spec: run every strategy (spec section 4.5 fan-out);
the missing code is the worker orchestration loop. -/
def specRunAll (horizon : ℕ) (outcomes : String → Option ((ℕ → ℚ) × ℚ × ℚ)) :
    List SpecModelResult :=
  specStrategyNames.map fun n => specRunStrategy n horizon (outcomes n)

/-- Is `b` strictly better than `a` under the auto policy: lower RMSE, ties
broken by lower MAE (spec section 4.4)?  Remaining ties keep the earlier
strategy in the priority order. -/
def specStrictlyBetter (a b : SpecModelResult) : Bool :=
  b.rmse < a.rmse ∨ (b.rmse = a.rmse ∧ b.mae < a.mae)

/-- Modelled from the spec: auto selection over a priority-ordered list of
results (spec section 4.4); the missing code is the worker evaluator. -/
def specBest : List SpecModelResult → Option SpecModelResult
  | [] => none
  | r :: rs =>
      match specBest rs with
      | none => some r
      | some b => some (if specStrictlyBetter r b then b else r)

/-- Modelled from the spec: the Evaluator / Selector (spec section 4.4); the
missing code is the worker `select`.  A named strategy that succeeded is
taken unconditionally; otherwise the best failure-free result wins; `none`
means no viable model. -/
def specSelect (policy : String) (rs : List SpecModelResult) :
    Option SpecModelResult :=
  match rs.find? fun r => policy = r.strategy_name ∧ r.fit_error = none with
  | some r => some r
  | none => specBest (rs.filter fun r => r.fit_error = none)

/-- Outcome of processing one job (spec section 4.5): `completed` carries
the selected result and the full results mapping, `failed` the
no-viable-model terminal state. -/
inductive SpecJobOutcome
  | completed (selected : SpecModelResult) (all : List SpecModelResult)
  | failed
deriving DecidableEq

/-- Modelled from the spec: the Job State Machine processing of one
claimed job (spec section 4.5); the missing code is the worker loop.  The
job completes exactly when the selector finds a viable strategy. -/
def specProcessJob (policy : String) (horizon : ℕ)
    (outcomes : String → Option ((ℕ → ℚ) × ℚ × ℚ)) : SpecJobOutcome :=
  let rs := specRunAll horizon outcomes
  match specSelect policy rs with
  | some sel => .completed sel rs
  | none => .failed

/-! ## Helper lemmas -/

/-- Running no events returns the start state. -/
theorem runEvents_nil (step : PageState → PageEvent → Option PageState)
    (s0 s : PageState) : runEvents step s0 [] = some s ↔ s0 = s := by
  simp only [runEvents, Option.some.injEq]

/-- Inversion of one step of an event run. -/
theorem runEvents_cons (step : PageState → PageEvent → Option PageState)
    (s0 : PageState) (e : PageEvent) (es : List PageEvent) (s : PageState) :
    runEvents step s0 (e :: es) = some s ↔
      ∃ s1, step s0 e = some s1 ∧ runEvents step s1 es = some s := by
  simp only [runEvents]
  cases hstep : step s0 e <;> simp

/-- Inversion of a time-column selection on the columns page. -/
theorem columnsStep_setTime_inv {cols : List String} {s : PageState} {c : String}
    {s1 : PageState}
    (h : columnsStep cols s (PageEvent.setTime c) = some s1) :
    (c = "" ∨ cols.contains c = true) ∧ s1 = { s with timeColumn := c } := by
  simp only [columnsStep] at h
  split at h
  next hg => exact ⟨hg, by cases h; rfl⟩
  next => cases h

/-- Inversion of a target-column selection on the columns page. -/
theorem columnsStep_setTarget_inv {cols : List String} {s : PageState} {c : String}
    {s1 : PageState}
    (h : columnsStep cols s (PageEvent.setTarget c) = some s1) :
    (c = "" ∨ (cols.contains c = true ∧ c ≠ s.timeColumn)) ∧
      s1 = { s with targetColumn := c } := by
  simp only [columnsStep] at h
  split at h
  next hg => exact ⟨hg, by cases h; rfl⟩
  next => cases h

/-- Inversion of an exogenous toggle on the columns page. -/
theorem columnsStep_toggleExog_inv {cols : List String} {s : PageState} {c : String}
    {s1 : PageState}
    (h : columnsStep cols s (PageEvent.toggleExog c) = some s1) :
    (cols.contains c = true ∧ c ≠ s.timeColumn ∧ c ≠ s.targetColumn) ∧
      s1 = { s with exogenous := jsToggle s.exogenous c } := by
  simp only [columnsStep] at h
  split at h
  next hg => exact ⟨hg, by cases h; rfl⟩
  next => cases h

/-- Inversion of a horizon edit on the columns page. -/
theorem columnsStep_setHorizon_inv {cols : List String} {s : PageState}
    {raw : Option Int} {s1 : PageState}
    (h : columnsStep cols s (PageEvent.setHorizon raw) = some s1) :
    s1 = { s with horizon := max 1 (min 365 (jsOrInt raw 14)) } := by
  simp only [columnsStep] at h
  cases h
  rfl

/-- One columns-page step keeps the horizon inside `[1, 365]`. -/
theorem columnsStep_horizon (cols : List String) (s0 s1 : PageState)
    (e : PageEvent) (h : columnsStep cols s0 e = some s1)
    (h1 : 1 ≤ s0.horizon) (h2 : s0.horizon ≤ 365) :
    1 ≤ s1.horizon ∧ s1.horizon ≤ 365 := by
  cases e with
  | setTime c =>
      obtain ⟨-, rfl⟩ := columnsStep_setTime_inv h
      exact ⟨h1, h2⟩
  | setTarget c =>
      obtain ⟨-, rfl⟩ := columnsStep_setTarget_inv h
      exact ⟨h1, h2⟩
  | toggleExog c =>
      obtain ⟨-, rfl⟩ := columnsStep_toggleExog_inv h
      exact ⟨h1, h2⟩
  | setHorizon raw =>
      have hs := columnsStep_setHorizon_inv h
      subst hs
      exact ⟨le_max_left _ _, max_le (by norm_num) (min_le_left _ _)⟩

/-- Every state reachable on the columns page keeps the horizon in
`[1, 365]`: the only event that writes it clamps with
`Math.max(1, Math.min(365, ...))`. -/
theorem columns_horizon_inv (cols : List String) :
    ∀ (events : List PageEvent) (s0 s : PageState),
      1 ≤ s0.horizon → s0.horizon ≤ 365 →
      runEvents (columnsStep cols) s0 events = some s →
      1 ≤ s.horizon ∧ s.horizon ≤ 365 := by
  intro events
  induction events with
  | nil =>
      intro s0 s h1 h2 h
      rw [runEvents_nil] at h
      subst h
      exact ⟨h1, h2⟩
  | cons e es ih =>
      intro s0 s h1 h2 h
      rw [runEvents_cons] at h
      obtain ⟨s1, hstep, hrest⟩ := h
      obtain ⟨g1, g2⟩ := columnsStep_horizon cols s0 s1 e hstep h1 h2
      exact ih s1 s g1 g2 hrest

/-- Membership after a JS exogenous toggle: a member of the result was
already in the list or is the toggled column. -/
theorem mem_jsToggle {l : List String} {c x : String}
    (h : x ∈ jsToggle l c) : x ∈ l ∨ x = c := by
  unfold jsToggle at h
  split at h
  · exact Or.inl (List.mem_of_mem_filter h)
  · rcases List.mem_append.mp h with h1 | h1
    · exact Or.inl h1
    · simp only [List.mem_singleton] at h1
      exact Or.inr h1

/-- A run of exogenous toggles leaves the time and target selections fixed
and only ever holds exogenous columns that differ from both. -/
theorem toggles_inv (cols : List String) (t g : String) :
    ∀ (toggles : List String) (s0 s : PageState),
      s0.timeColumn = t → s0.targetColumn = g →
      (∀ c ∈ s0.exogenous, c ≠ t ∧ c ≠ g) →
      runEvents (columnsStep cols) s0 (toggles.map PageEvent.toggleExog) = some s →
      s.timeColumn = t ∧ s.targetColumn = g ∧
        ∀ c ∈ s.exogenous, c ≠ t ∧ c ≠ g := by
  intro toggles
  induction toggles with
  | nil =>
      intro s0 s ht hg hinv h
      rw [List.map_nil, runEvents_nil] at h
      subst h
      exact ⟨ht, hg, hinv⟩
  | cons c cs ih =>
      intro s0 s ht hg hinv h
      rw [List.map_cons, runEvents_cons] at h
      obtain ⟨s1, hstep, hrest⟩ := h
      obtain ⟨⟨-, hct, hcg⟩, rfl⟩ := columnsStep_toggleExog_inv hstep
      refine ih { s0 with exogenous := jsToggle s0.exogenous c } s ht hg ?_ hrest
      intro x hx
      rcases mem_jsToggle hx with hx1 | hx1
      · exact hinv x hx1
      · subst hx1
        exact ⟨ht ▸ hct, hg ▸ hcg⟩

/-! ## Claims -/

/-- Claim C1 (corrected), counterexample: on the configure page
(`part_005` with `ColumnSelector`), typing `500` into the horizon input and
submitting produces a forecast request with `horizon = 500 > 365`; the
clamp exists only on the columns page. -/
theorem c1_counterexample :
    runEvents (configureStep ["date", "sales"]) (initState "")
        [PageEvent.setTime "date", PageEvent.setTarget "sales",
         PageEvent.setHorizon (some 500)]
      = some ⟨"date", "sales", [], 500⟩ ∧
    canSubmit ⟨"date", "sales", [], 500⟩ = true ∧
    (submitRequest (PageState.mk "date" "sales" [] 500)).horizon = 500 ∧
    ¬ ((500 : Int) ≤ 365) := by
  refine ⟨by decide, by decide, by decide, by decide⟩

/-- Claim C1 (amended): every forecast request submitted from the columns
configuration page has `1 ≤ horizon ≤ 365`; the configure page applies no
clamp (see the counterexample). -/
theorem c1_columns_horizon_bounds (cols : List String) (t0 : String)
    (events : List PageEvent) (s : PageState)
    (h : runEvents (columnsStep cols) (initState t0) events = some s) :
    1 ≤ (submitRequest s).horizon ∧ (submitRequest s).horizon ≤ 365 :=
  columns_horizon_inv cols events (initState t0) s
    (by norm_num [initState]) (by norm_num [initState]) h

/-- Witness for C1: a concrete columns-page trace that types `1000`; the
clamped submission carries horizon 365, inside the bounds. -/
theorem c1_witness :
    1 ≤ (submitRequest (PageState.mk "" "" [] 365)).horizon ∧
      (submitRequest (PageState.mk "" "" [] 365)).horizon ≤ 365 :=
  c1_columns_horizon_bounds ["date", "sales"] ""
    [PageEvent.setHorizon (some 1000)] ⟨"", "", [], 365⟩ (by decide)

/-- Claim C2 (corrected), counterexample: out-of-order edits submit invalid
requests.  On the columns page with columns `date, sales`, selecting time
`date`, target `sales`, then switching time to `sales` reaches a
submittable state with `time_column = target_column`; with columns
`date, a, b`, selecting target `a`, toggling `b` as exogenous, then
switching target to `b` reaches a submittable state whose target is a
member of the exogenous set. -/
theorem c2_counterexample :
    (runEvents (columnsStep ["date", "sales"]) (initState "")
        [PageEvent.setTime "date", PageEvent.setTarget "sales",
         PageEvent.setTime "sales"]
      = some ⟨"sales", "sales", [], 14⟩ ∧
     canSubmit ⟨"sales", "sales", [], 14⟩ = true ∧
     (submitRequest (PageState.mk "sales" "sales" [] 14)).time_column
       = (submitRequest (PageState.mk "sales" "sales" [] 14)).target_column) ∧
    (runEvents (columnsStep ["date", "a", "b"]) (initState "")
        [PageEvent.setTime "date", PageEvent.setTarget "a",
         PageEvent.toggleExog "b", PageEvent.setTarget "b"]
      = some ⟨"date", "b", ["b"], 14⟩ ∧
     canSubmit ⟨"date", "b", ["b"], 14⟩ = true ∧
     (submitRequest (PageState.mk "date" "b" ["b"] 14)).exogenous = some ["b"] ∧
     (submitRequest (PageState.mk "date" "b" ["b"] 14)).target_column ∈ ["b"]) := by
  refine ⟨⟨by decide, by decide, by decide⟩, ⟨by decide, by decide, by decide, by decide⟩⟩

/-- Claim C2 (amended): when the user edits in the order time column, then
target, then exogenous toggles — never revisiting an earlier selection —
every submittable state satisfies the invariant: the target differs from
the time column and is not a member of the exogenous set. -/
theorem c2_ordered_edits_invariant (cols : List String) (t g : String)
    (toggles : List String) (s : PageState)
    (h : runEvents (columnsStep cols) (initState "")
        (PageEvent.setTime t :: PageEvent.setTarget g ::
          toggles.map PageEvent.toggleExog) = some s)
    (hsub : canSubmit s = true) :
    (submitRequest s).target_column ≠ (submitRequest s).time_column ∧
    ∀ ex, (submitRequest s).exogenous = some ex →
      (submitRequest s).target_column ∉ ex := by
  rw [runEvents_cons] at h
  obtain ⟨s1, hstep1, h⟩ := h
  obtain ⟨-, rfl⟩ := columnsStep_setTime_inv hstep1
  rw [runEvents_cons] at h
  obtain ⟨s2, hstep2, h⟩ := h
  obtain ⟨hg, rfl⟩ := columnsStep_setTarget_inv hstep2
  have inv := toggles_inv cols t g toggles _ s rfl rfl (by intro c hc; cases hc) h
  obtain ⟨htime, htarget, hexog⟩ := inv
  simp only [canSubmit, htime, htarget, Bool.decide_and, Bool.and_eq_true,
    decide_eq_true_eq] at hsub
  have hgt : g ≠ t := by
    rcases hg with hg0 | hg1
    · exact absurd hg0 hsub.2
    · exact hg1.2
  constructor
  · simpa [submitRequest, htime, htarget] using hgt
  · intro ex hex
    simp only [submitRequest] at hex
    split at hex
    next =>
      cases hex
      intro hmem
      have hmem2 : g ∈ s.exogenous := by
        simpa [submitRequest, htarget] using hmem
      exact (hexog _ hmem2).2 rfl
    next => cases hex

/-- Witness for C2: a concrete ordered trace (time `date`, target `sales`,
toggle `promo`) whose submitted request satisfies the invariant. -/
theorem c3_forecastPoints_length (p : List ℚ) (lb ub : Option (List ℚ)) :
    ∀ (ds : List String) (k : ℕ), (forecastPoints p lb ub ds k).length = ds.length := by
  intro ds
  induction ds with
  | nil => intro k; rfl
  | cons d ds ih =>
      intro k
      simp only [forecastPoints, List.length_cons, ih]

theorem c3_forecastPoints_get (p : List ℚ) (lb ub : Option (List ℚ)) :
    ∀ (ds : List String) (k i : ℕ),
      (forecastPoints p lb ub ds k).get? i
        = (ds.get? i).map fun d => forecastChartPoint p lb ub d (k + i) := by
  intro ds
  induction ds with
  | nil => intro k i; cases i <;> rfl
  | cons d ds ih =>
      intro k i
      cases i with
      | zero => rfl
      | succ j =>
          simp only [forecastPoints, List.get?_cons_succ]
          rw [ih (k + 1) j]
          rw [show k + 1 + j = k + (j + 1) from by omega]

/-- Claim C3 (corrected), counterexample: with one forecast date and a
forecast value of exactly `0`, the assembled forecast point does not carry
the value at index 0 — the JS `predictions[idx] || null` collapses the
falsy `0` to `null` — so the assembled chart is not the merge the claim
describes. -/
theorem c3_counterexample :
    buildChartData (some []) (some ["2024-01-01"]) (some [0]) none none
      = [ChartPoint.mk "2024-01-01" none none none none true] ∧
    ([(0 : ℚ)].get? 0 = some 0) ∧
    ((none : Option ℚ) ≠ some 0) := by
  refine ⟨by decide, by decide, by decide⟩

/-- Claim C3 (amended): the assembled chart data is the historical points
in order (not-forecast, carrying date and actual value) followed by one
forecast point per forecast date in order, where the point at offset `i`
carries the selected strategy value, lower bound, and upper bound at index
`i` each filtered through JS `|| null` — present and nonzero values are
kept, missing or zero values become null. -/
theorem c3_chart_merge (hist : List HistPoint) (ds : List String) (p : List ℚ)
    (lb ub : Option (List ℚ)) :
    (buildChartData (some hist) (some ds) (some p) lb ub).length
        = hist.length + ds.length ∧
    (∀ i, i < hist.length →
      (buildChartData (some hist) (some ds) (some p) lb ub).get? i
        = (hist.get? i).map histChartPoint) ∧
    (∀ i,
      (buildChartData (some hist) (some ds) (some p) lb ub).get? (hist.length + i)
        = (ds.get? i).map fun d =>
            ChartPoint.mk d none (jsNumOrNull (p.get? i))
              (jsNumOrNull (lb.bind fun l => l.get? i))
              (jsNumOrNull (ub.bind fun l => l.get? i)) true) := by
  refine ⟨?_, ?_, ?_⟩
  · simp [buildChartData, c3_forecastPoints_length]
  · intro i hi
    rw [buildChartData]
    rw [List.get?_append (by simpa using hi)]
    exact List.get?_map histChartPoint hist i
  · intro i
    rw [buildChartData]
    rw [List.get?_append_right (by simp)]
    simp only [List.length_map]
    rw [show hist.length + i - hist.length = i from by omega]
    rw [c3_forecastPoints_get]
    simp [forecastChartPoint]

/-- Witness for C3: the two indexing conjuncts evaluated on a concrete
one-point history and a single forecast date. -/
theorem c3_witness :
    (buildChartData (some [HistPoint.mk "d0" (some 5)]) (some ["d1"])
        (some [2]) none none).get? 0
      = some (ChartPoint.mk "d0" (some 5) none none none false) ∧
    (buildChartData (some [HistPoint.mk "d0" (some 5)]) (some ["d1"])
        (some [2]) none none).get? 1
      = some (ChartPoint.mk "d1" none (some 2) none none true) := by
  have h := c3_chart_merge [HistPoint.mk "d0" (some 5)] ["d1"] [2] none none
  have h1 := h.2.1 0 (by decide)
  have h2 := h.2.2 0
  constructor
  · simpa using h1
  · simpa using h2

/-- Claim C4 (corrected), counterexample: the client-side detector never
distinguishes two inputs with identical column names — its ranking cannot
differ on any pair of sample-row sets, because `detectTimeColumn` never
reads its `data` argument. -/
theorem c4_counterexample :
    ¬ ∃ (cols : List String) (d1 d2 : List Row),
        detectTimeColumn cols d1 ≠ detectTimeColumn cols d2 := by
  rintro ⟨cols, d1, d2, h⟩
  exact h rfl

/-- Claim C4 (amended): the client-side classifier result depends only on
the column names — the sampled values never affect it; the name-driven
behaviour picks the first keyword-matching column, else falls back to the
first column. -/
theorem c4_name_only_detection :
    (∀ (cols : List String) (d1 d2 : List Row),
      detectTimeColumn cols d1 = detectTimeColumn cols d2) ∧
    detectTimeColumn ["amount", "order_date"] [] = some "order_date" ∧
    detectTimeColumn ["foo", "bar"] [] = some "foo" := by
  refine ⟨fun cols d1 d2 => rfl, by decide, by decide⟩

/-- Claim C5 (corrected), counterexample: for the non-empty column list
whose only entry is the empty-string name (no keyword matches it), the
client-side detector returns `null` rather than the first column — JS
`detected || cols[0] || null` treats the empty string as falsy. -/
theorem c5_counterexample :
    detectTimeColumn [""] [] = none ∧
    ([""] : List String) ≠ [] ∧
    (∀ kw ∈ timeKeywords, strIncludes (strToLower "") kw = false) := by
  refine ⟨by decide, by decide, by decide⟩

/-- Claim C5 (amended): detection is total, and when no column name
matches a time keyword the client-side detector returns the first column
provided its name is non-empty (an empty-string first name yields null
instead), while the configure-page default falls back to the first column
whenever the server returns no time candidates. -/
theorem c5_first_column_fallback :
    (∀ (c0 : String) (cols : List String) (d : List Row),
      ((c0 :: cols).all fun col =>
          timeKeywords.all fun kw => ! strIncludes (strToLower col) kw) = true →
      c0 ≠ "" →
      detectTimeColumn (c0 :: cols) d = some c0) ∧
    (∀ (c0 : String) (cols : List String),
      configureDetectedTimeColumn none (c0 :: cols) = some c0) ∧
    (∀ (c0 : String) (cols : List String),
      configureDetectedTimeColumn (some []) (c0 :: cols) = some c0) := by
  refine ⟨?_, ?_, ?_⟩
  · intro c0 cols d hall hne
    have hfind : ((c0 :: cols).find? fun col =>
        timeKeywords.any fun kw => strIncludes (strToLower col) kw) = none := by
      rw [List.find?_eq_none]
      intro col hcol hp
      rw [List.all_eq_true] at hall
      have hcolall := hall col hcol
      rw [List.any_eq_true] at hp
      obtain ⟨kw, hkw, hinc⟩ := hp
      rw [List.all_eq_true] at hcolall
      have := hcolall kw hkw
      rw [hinc] at this
      cases this
    simp [detectTimeColumn, hfind, jsOrStr, strTruthy, hne]
  · intro c0 cols
    simp [configureDetectedTimeColumn]
  · intro c0 cols
    simp [configureDetectedTimeColumn]

/-- Witness for C5: a concrete keyword-free column list with a non-empty
first name, detected as the first column. -/
theorem c5_witness :
    detectTimeColumn ["foo", "bar"] [] = some "foo" :=
  c5_first_column_fallback.1 "foo" ["bar"] [] (by decide) (by decide)

/-- Membership in the key list of a JS object literal characterises a
successful lookup. -/
theorem lookupStr_isSome {α : Type} (st : String) :
    ∀ l : List (String × α), (lookupStr st l).isSome ↔ st ∈ l.map Prod.fst := by
  intro l
  induction l with
  | nil => simp [lookupStr]
  | cons kv rest ih =>
      obtain ⟨k, v⟩ := kv
      by_cases h : st = k <;> simp [lookupStr, h, ih]

/-- A status absent from the key list falls through to `none`. -/
theorem lookupStr_eq_none {α : Type} (st : String) (l : List (String × α))
    (h : st ∉ l.map Prod.fst) : lookupStr st l = none := by
  cases hl : lookupStr st l with
  | none => rfl
  | some v =>
      exfalso
      exact h ((lookupStr_isSome st l).mp (by rw [hl]; rfl))

/-- Claim C6 (corrected), counterexample: the client distinguishes status
values outside the four-element specification set, and fails to
distinguish one inside it — the Results poll treats `finished` as terminal
success, the Dashboard badge has a dedicated entry for `queued`, and
`pending` (a spec status) has no Dashboard entry at all. -/
theorem c6_counterexample :
    resultsStatusAction "finished" = PollAction.stopSuccess ∧
    specStatusSet.contains "finished" = false ∧
    (lookupStr "queued" dashboardStatusConfig).isSome = true ∧
    specStatusSet.contains "queued" = false ∧
    lookupStr "pending" dashboardStatusConfig = none ∧
    specStatusSet.contains "pending" = true := by
  refine ⟨by decide, by decide, by decide, by decide, by decide, by decide⟩

/-- Claim C6 (amended): the Results polling code distinguishes exactly
`completed`/`finished` as terminal success and `failed` as terminal
failure, treating everything else as in progress, and the Dashboard badge
distinguishes exactly the eight statuses `uploaded`, `configured`,
`processing`, `queued`, `started`, `completed`, `finished`, `failed`,
rendering any other value — including `pending` — with the `uploaded`
badge. -/
theorem c6_client_status_sets :
    (∀ st : String,
      (resultsStatusAction st = PollAction.stopSuccess ↔
        st = "completed" ∨ st = "finished") ∧
      (resultsStatusAction st = PollAction.stopFailure ↔ st = "failed") ∧
      ((lookupStr st dashboardStatusConfig).isSome ↔ st ∈ dashboardStatusKeys)) ∧
    (∀ st : String, st ∉ dashboardStatusKeys →
      getStatusBadgeConfig st = getStatusBadgeConfig "uploaded") ∧
    "pending" ∉ dashboardStatusKeys := by
  refine ⟨?_, ?_, by decide⟩
  · intro st
    refine ⟨?_, ?_, lookupStr_isSome st dashboardStatusConfig⟩
    · unfold resultsStatusAction
      by_cases h1 : st = "completed" ∨ st = "finished"
      · simp [h1]
      · by_cases h2 : st = "failed" <;> simp [h1, h2]
    · by_cases h1 : st = "completed" ∨ st = "finished"
      · rw [resultsStatusAction, if_pos h1]
        constructor
        · intro h; exact absurd h (by decide)
        · intro h2
          rcases h1 with h1 | h1 <;> rw [h1] at h2 <;> exact absurd h2 (by decide)
      · unfold resultsStatusAction
        by_cases h2 : st = "failed" <;> simp [h1, h2]
  · intro st hst
    rw [getStatusBadgeConfig, lookupStr_eq_none st _ (by exact hst)]
    rfl

/-- Witness for C6: the unknown status `pending` receives the same badge
configuration as `uploaded`. -/
theorem c6_witness :
    getStatusBadgeConfig "pending" = getStatusBadgeConfig "uploaded" :=
  c6_client_status_sets.2.1 "pending" (by decide)

/-- Claim C9 (code bug): the two displays disagree on the unit of
`metrics.mape` and `metrics.accuracy`.  For a result with `mape = 13.3`
(a percentage per the spec, which defines accuracy as `100 − MAPE` clamped
to `[0, 100]`), the summary card shows `13.3 %` while the comparison table
shows `1330.00 %`, because `formatMetric(value, percent)` multiplies the
stored value by 100. -/
theorem c9_metric_unit_mismatch :
    metricsCardMapePercent (some (133 / 10)) = some (133 / 10) ∧
    formatMetricPercent (some (133 / 10)) = some 1330 ∧
    metricsCardAccuracyPercent (some (867 / 10)) = some (867 / 10) ∧
    formatMetricPercent (some (867 / 10)) = some 8670 ∧
    ((133 : ℚ) / 10 ≠ 1330) ∧ ((867 : ℚ) / 10 ≠ 8670) := by
  refine ⟨?_, ?_, ?_, ?_, by norm_num, by norm_num⟩
  · simp only [metricsCardMapePercent, jsToFixed]
    norm_num
  · simp only [formatMetricPercent, jsToFixed]
    norm_num
  · simp only [metricsCardAccuracyPercent, jsToFixed]
    norm_num
  · simp only [formatMetricPercent, jsToFixed]
    norm_num

/-- The auto selector only ever returns a member of its input list. -/
theorem specBest_mem :
    ∀ (l : List SpecModelResult) (r : SpecModelResult),
      specBest l = some r → r ∈ l := by
  intro l
  induction l with
  | nil => intro r h; cases h
  | cons a rs ih =>
      intro r h
      simp only [specBest] at h
      cases hb : specBest rs with
      | none =>
          rw [hb] at h
          cases h
          exact List.mem_cons_self a rs
      | some b =>
          rw [hb] at h
          cases h
          by_cases hcmp : specStrictlyBetter a b = true
      -- the selected element is either the head or a member of the tail
          · rw [if_pos hcmp]
            exact List.mem_cons_of_mem a (ih b hb)
          · rw [if_neg hcmp]
            exact List.mem_cons_self a rs

/-- Whatever the policy, a selected result is a failure-free member of the
result list. -/
theorem specSelect_mem (policy : String) (rs : List SpecModelResult)
    (sel : SpecModelResult) (h : specSelect policy rs = some sel) :
    sel ∈ rs ∧ sel.fit_error = none := by
  simp only [specSelect] at h
  cases hf : rs.find? fun r => policy = r.strategy_name ∧ r.fit_error = none with
  | some r =>
      rw [hf] at h
      cases h
      have hp := List.find?_some hf
      simp only [Bool.decide_and, Bool.and_eq_true, decide_eq_true_eq] at hp
      exact ⟨List.mem_of_find?_eq_some hf, hp.2⟩
  | none =>
      rw [hf] at h
      have hmem := specBest_mem _ _ h
      rw [List.mem_filter] at hmem
      refine ⟨hmem.1, ?_⟩
      have := hmem.2
      simpa using this

/-- Every failure-free result produced by the strategy fan-out carries
exactly `horizon` forecast values. -/
theorem specRunAll_length (horizon : ℕ)
    (outcomes : String → Option ((ℕ → ℚ) × ℚ × ℚ))
    (r : SpecModelResult) (hr : r ∈ specRunAll horizon outcomes)
    (hok : r.fit_error = none) :
    r.forecast_values.length = horizon := by
  simp only [specRunAll, List.mem_map] at hr
  obtain ⟨n, -, rfl⟩ := hr
  cases ho : outcomes n with
  | some fm =>
      obtain ⟨f, rm⟩ := fm
      simp [specRunStrategy, ho]
  | none =>
      simp [specRunStrategy, ho] at hok

/-- Claim C7 (confirmed, modelled from the spec): for every policy,
horizon and fitting outcome, a job that completes selects a model result
whose `forecast_values` has length exactly the requested horizon. -/
theorem c7_forecast_length (policy : String) (h : ℕ)
    (outcomes : String → Option ((ℕ → ℚ) × ℚ × ℚ))
    (sel : SpecModelResult) (all : List SpecModelResult)
    (hc : specProcessJob policy h outcomes = SpecJobOutcome.completed sel all) :
    sel.forecast_values.length = h := by
  simp only [specProcessJob] at hc
  cases hsel : specSelect policy (specRunAll h outcomes) with
  | none => rw [hsel] at hc; cases hc
  | some s =>
      rw [hsel] at hc
      cases hc
      obtain ⟨hmem, hok⟩ := specSelect_mem policy _ _ hsel
      exact specRunAll_length h outcomes _ hmem hok

/-- Witness for C7: a concrete run in which every strategy fits, the job
completes with the priority-first strategy, and the selected forecast has
the requested length 3. -/
theorem c7_witness :
    (SpecModelResult.mk "arima" [0, 0, 0] 0 0 none).forecast_values.length = 3 :=
  c7_forecast_length "auto" 3 (fun _ => some (fun _ => 0, 0, 0))
    (SpecModelResult.mk "arima" [0, 0, 0] 0 0 none)
    [SpecModelResult.mk "arima" [0, 0, 0] 0 0 none,
     SpecModelResult.mk "ets" [0, 0, 0] 0 0 none,
     SpecModelResult.mk "xgboost" [0, 0, 0] 0 0 none]
    (by decide)

/-- After the interval timer has been cleared, no later event can rearm
it. -/
theorem poll_inactive_preserved (s : PollState) (e : PollEvent)
    (h : s.intervalActive = false) :
    (pollStep s e).1.intervalActive = false := by
  cases e with
  | tick st =>
      simp [pollStep, pollTick, h]
  | timeoutFire =>
      simp only [pollStep, pollTimeoutFire]
      by_cases ht : s.timeoutActive = false
      · simp [ht, h]
      · simp only [ht, if_false]
        by_cases hp : s.isPolling <;> simp [hp, h]

/-- Once the interval timer is cleared, no status request is ever issued
again. -/
theorem pollRequests_zero_of_inactive :
    ∀ (events : List PollEvent) (s : PollState),
      s.intervalActive = false → pollRequests s events = 0 := by
  intro events
  induction events with
  | nil => intro s h; rfl
  | cons e es ih =>
      intro s h
      have hstep := poll_inactive_preserved s e h
      have hreq : (pollStep s e).2 = false := by
        cases e with
        | tick st => simp [pollStep, pollTick, h]
        | timeoutFire => rfl
      simp only [pollRequests, hreq, if_false]
      rw [ih _ hstep]
      simp

/-- Claim C8 (confirmed): the Results page polls on a fixed 2-second
interval with a 5-minute abandonment timeout; a tick that observes a
terminal status (`completed`/`finished` or `failed`) clears the polling
flag and both timers, after which no trace of further events issues any
status request; and if the timeout fires while still polling, the page
stops polling, surfaces the "taking longer than expected" state, and
likewise never requests again. -/
theorem c8_poll_terminal_stops (s : PollState) (st : String)
    (events : List PollEvent) :
    (pollIntervalMs = 2000 ∧ pollTimeoutMs = 300000) ∧
    (s.intervalActive = true → s.isPolling = true →
      (resultsStatusAction st = PollAction.stopSuccess ∨
       resultsStatusAction st = PollAction.stopFailure) →
      (pollTick s st).1.intervalActive = false ∧
      (pollTick s st).1.isPolling = false ∧
      pollRequests (pollTick s st).1 events = 0) ∧
    (s.intervalActive = false → pollRequests s events = 0) ∧
    (s.timeoutActive = true → s.isPolling = true →
      (pollTimeoutFire s).timedOut = true ∧
      (pollTimeoutFire s).isPolling = false ∧
      (pollTimeoutFire s).intervalActive = false ∧
      pollRequests (pollTimeoutFire s) events = 0) := by
  refine ⟨⟨rfl, rfl⟩, ?_, ?_, ?_⟩
  · intro hact hpol hterm
    have hstopped : (pollTick s st).1 = pollStopped s.timedOut := by
      rw [pollTick, hact, hpol]
      simp only [Bool.true_eq_false, if_false]
      rcases hterm with ht | ht <;> rw [ht]
    rw [hstopped]
    exact ⟨rfl, rfl, pollRequests_zero_of_inactive events _ rfl⟩
  · intro h
    exact pollRequests_zero_of_inactive events s h
  · intro htime hpol
    have hfired : pollTimeoutFire s = PollState.mk false false false false true := by
      rw [pollTimeoutFire, htime]
      simp only [Bool.true_eq_false, if_false]
      rw [hpol]
      rfl
    rw [hfired]
    exact ⟨rfl, rfl, rfl, pollRequests_zero_of_inactive events _ rfl⟩

/-- Witness for C8: from the freshly armed state, observing `completed`
stops everything, and two further events (a stray tick and the timeout)
issue no request. -/
theorem c8_witness :
    (pollTick pollInit "completed").1.intervalActive = false ∧
    (pollTick pollInit "completed").1.isPolling = false ∧
    pollRequests (pollTick pollInit "completed").1
      [PollEvent.tick "processing", PollEvent.timeoutFire] = 0 :=
  (c8_poll_terminal_stops pollInit "completed"
      [PollEvent.tick "processing", PollEvent.timeoutFire]).2.1
    rfl rfl (Or.inl (by decide))

/-- With one exported row per chart point, the `i`-th data line of the CSV
is the line of the `i`-th chart point. -/
theorem csvLines_get (render : ℚ → String) (data : List ChartPoint) (i : ℕ) :
    (csvLines render data).get? (i + 1) = (data.get? i).map (csvLine render) := by
  simp [csvLines, List.get?_map]

/-- Claim C10 (confirmed): exporting a non-empty chart dataset yields the
header line followed by one line per chart point in order, and each
numeric cell renders the value whenever it is present — including `0` —
and is the empty string exactly when the value is null or undefined.  The
`render` parameter abstracts the JS number-to-string coercion performed by
`Array.join`, which never yields an empty string. -/
theorem c10_csv_export (render : ℚ → String) (hrender : ∀ v, render v ≠ "")
    (data : List ChartPoint) (hdata : data ≠ []) :
    handleExportCSV render data
        = some (String.intercalate "\n" (csvLines render data)) ∧
    (csvLines render data).length = data.length + 1 ∧
    (csvLines render data).get? 0 = some csvHeader ∧
    (∀ i, (csvLines render data).get? (i + 1) = (data.get? i).map (csvLine render)) ∧
    (∀ x, csvField render x = "" ↔ x = none) ∧
    (∀ v, csvField render (some v) = render v) := by
  refine ⟨?_, ?_, rfl, csvLines_get render data, ?_, fun v => rfl⟩
  · rw [handleExportCSV, if_neg (by simpa using hdata)]
  · simp [csvLines]
  · intro x
    cases x with
    | none => simp [csvField]
    | some v => simp [csvField, hrender v]

/-- Witness for C10: a one-point dataset whose actual value is `0` exports
the header plus one line, and the zero is rendered, not blanked. -/
theorem c10_witness :
    handleExportCSV (fun _ => "0") [ChartPoint.mk "d1" (some 0) none none none false]
        = some (String.intercalate "\n"
            (csvLines (fun _ => "0") [ChartPoint.mk "d1" (some 0) none none none false])) ∧
    (csvLines (fun _ => "0") [ChartPoint.mk "d1" (some 0) none none none false]).length
        = 1 + 1 ∧
    csvField (fun _ => "0") (some 0) = "0" := by
  have h := c10_csv_export (fun _ => "0")
    (fun v => show ("0" : String) ≠ "" by decide)
    [ChartPoint.mk "d1" (some 0) none none none false] (by decide)
  exact ⟨h.1, h.2.1, h.2.2.2.2.2 0⟩

theorem c2_witness :
    (submitRequest (PageState.mk "date" "sales" ["promo"] 14)).target_column
        ≠ (submitRequest (PageState.mk "date" "sales" ["promo"] 14)).time_column ∧
    ∀ ex, (submitRequest (PageState.mk "date" "sales" ["promo"] 14)).exogenous
        = some ex →
      (submitRequest (PageState.mk "date" "sales" ["promo"] 14)).target_column ∉ ex :=
  c2_ordered_edits_invariant ["date", "sales", "promo"] "date" "sales" ["promo"]
    ⟨"date", "sales", ["promo"], 14⟩ (by decide) (by decide)

end TsFaas
